import Mathlib

/-!
# Verification of the client-side trade simulation engine

Shallow embedding of the trade-simulation component (the `TradeSimulation`
React component): the mock price table `MOCK_PRICES`, the slippage model
`calculateMarketSlippage`, and the order execution function `executeTrade`,
together with proofs of the specification's testable properties.

Modelling conventions:

* JavaScript numbers are modelled as `Option ℚ`, written `JSNum`: `some q`
  is the finite value `q`, `none` stands for NaN (and, in the one
  unreachable division-by-zero case, for a non-finite result).  All
  arithmetic propagates `none`; every comparison involving `none` is
  `false`, matching NaN comparison semantics.
* The component's `portfolio` React state (a JS object keyed by symbol) is
  an association list `Ledger`; a JS object's keys are unique, updating an
  existing key keeps its place, and a fresh key is appended.
* `Math.random()` is passed in as an explicit draw `r : ℚ` with
  `0 ≤ r < 1` assumed where needed.
* The `quantity` form field is a string; we carry its parsed value
  `Number(quantity)` as a `JSNum` (`none` when the text is not numeric)
  plus a flag `quantityGiven` recording that the field was non-empty
  (the `!quantity` falsiness check).
* `TradeRecord` keeps the fields the specification talks about; the
  presentational fields (order id, timestamp, message, the constant
  status `'FILLED'`, the `toFixed` price string) are omitted.
-/

/-- A JavaScript number: `some q` is a finite rational value, `none` is
NaN. -/
abbrev JSNum := Option ℚ

/-- JS addition: NaN-propagating. -/
def jadd : JSNum → JSNum → JSNum
  | some a, some b => some (a + b)
  | _, _ => none

/-- JS subtraction: NaN-propagating. -/
def jsub : JSNum → JSNum → JSNum
  | some a, some b => some (a - b)
  | _, _ => none

/-- JS multiplication: NaN-propagating. -/
def jmul : JSNum → JSNum → JSNum
  | some a, some b => some (a * b)
  | _, _ => none

/-- JS division: NaN-propagating; a zero divisor is mapped to `none`
(JS would give a non-finite value there; the only division in the code
has divisor `oldQuantity + tradeQuantity`, strictly positive on every
reachable path). -/
def jdiv : JSNum → JSNum → JSNum
  | some a, some b => if b = 0 then none else some (a / b)
  | _, _ => none

/-- JS `>`: any comparison with NaN is false. -/
def jgt : JSNum → JSNum → Bool
  | some a, some b => decide (b < a)
  | _, _ => false

/-- JS `<=`: any comparison with NaN is false. -/
def jle : JSNum → JSNum → Bool
  | some a, some b => decide (a ≤ b)
  | _, _ => false

/-- Order side, the component's `'BUY' | 'SELL'` union. -/
inductive OrderSide
  | BUY
  | SELL
deriving DecidableEq

/-- One entry of the component's `portfolio` object:
`{ quantity, average_price, total_value }`. -/
structure Position where
  quantity : JSNum
  average_price : JSNum
  total_value : JSNum
deriving DecidableEq

/-- The `portfolio` object: symbol-keyed entries, keys unique. -/
abbrev Ledger := List (String × Position)

/-- JS property read `portfolio[sym]` (first entry with the key). -/
def pfLookup : Ledger → String → Option Position
  | [], _ => none
  | (s₀, p₀) :: rest, sym => if s₀ = sym then some p₀ else pfLookup rest sym

/-- JS property write `portfolio[sym] = p`: overwrite in place when the
key exists, append otherwise. -/
def pfInsert : Ledger → String → Position → Ledger
  | [], sym, p => [(sym, p)]
  | (s₀, p₀) :: rest, sym, p =>
      if s₀ = sym then (sym, p) :: rest else (s₀, p₀) :: pfInsert rest sym p

/-- JS `delete portfolio[sym]` (keys are unique in a JS object, so
removing every entry with the key is the same deletion). -/
def pfErase : Ledger → String → Ledger
  | [], _ => []
  | (s₀, p₀) :: rest, sym =>
      if s₀ = sym then pfErase rest sym else (s₀, p₀) :: pfErase rest sym

/-- The component's mutable simulation state: the `portfolio` object and
the `balance` scalar. -/
structure TradeState where
  ledger : Ledger
  cashBalance : JSNum
deriving DecidableEq

/-- The order inputs of one `executeTrade` call: the selected symbol, the
side, `Number(quantity)`, and whether the quantity field was non-empty. -/
structure TradeOrder where
  symbol : String
  side : OrderSide
  quantity : JSNum
  quantityGiven : Bool
deriving DecidableEq

/-- Rejection kinds, one per early `toast.error` return of
`executeTrade`.  The spec's names: `invalidQuantity` is
INVALID_QUANTITY, `insufficientBalance` is INSUFFICIENT_FUNDS,
`insufficientHoldings` is INSUFFICIENT_HOLDINGS; the code has no
UNKNOWN_SYMBOL rejection of any kind. -/
inductive RejectReason
  | missingFields
  | invalidQuantity
  | insufficientBalance
  | insufficientHoldings
deriving DecidableEq

/-- The trade record assembled for a filled order (the fields the
specification constrains; `profit_loss = none` models the `undefined`
field of the source's optional `profit_loss`). -/
structure TradeRecord where
  symbol : String
  side : OrderSide
  quantity : JSNum
  executed_price : JSNum
  profit_loss : Option JSNum
deriving DecidableEq

/-- Result of one `executeTrade` call: the rejection reason if any, the
`lastTrade` record if filled, and the state after the call. -/
structure ExecOutcome where
  reject : Option RejectReason
  record : Option TradeRecord
  state : TradeState
deriving DecidableEq

/-- `MOCK_PRICES`: the fixed symbol-to-reference-price table. -/
def MOCK_PRICES : List (String × ℚ) :=
  [("BTCUSDT", 43250.50), ("ETHUSDT", 2580.75), ("BNBUSDT", 315.20),
   ("ADAUSDT", 0.485), ("SOLUSDT", 98.65), ("XRPUSDT", 0.625),
   ("DOGEUSDT", 0.082), ("MATICUSDT", 0.875), ("LINKUSDT", 15.75),
   ("AVAXUSDT", 38.90)]

/-- JS read `MOCK_PRICES[symbol]`: `none` (undefined, which the
subsequent arithmetic turns into NaN) when the symbol is absent. -/
def lookupPrice : List (String × ℚ) → String → JSNum
  | [], _ => none
  | (s₀, p) :: rest, sym => if s₀ = sym then some p else lookupPrice rest sym

/-- The base reference price of a symbol, `MOCK_PRICES[symbol]`. -/
def priceOf (sym : String) : JSNum := lookupPrice MOCK_PRICES sym

/-- The `tradingPairs` dropdown list: the only symbols the form can
submit. -/
def tradingPairs : List String :=
  ["BTCUSDT", "ETHUSDT", "BNBUSDT", "ADAUSDT", "SOLUSDT",
   "XRPUSDT", "DOGEUSDT", "MATICUSDT", "LINKUSDT", "AVAXUSDT"]

/-- `calculateMarketSlippage`: slippage `(r - 0.5) * 0.01` for the draw
`r = Math.random()`, returning `basePrice * (1 + slippage)`. -/
def calculateMarketSlippage (basePrice : JSNum) (r : ℚ) : JSNum :=
  jmul basePrice (some (1 + (r - 0.5) * 0.01))

/-- `portfolio[symbol]?.quantity || 0`: the held quantity used by the
SELL sufficiency check (`||` maps the falsy values NaN and 0 to 0). -/
def holdingOf (s : TradeState) (sym : String) : ℚ :=
  match pfLookup s.ledger sym with
  | some pos => (pos.quantity).getD 0
  | none => 0

/-- The funds/holdings precondition checks of `executeTrade`, in source
order: `side === 'BUY' && tradeValue > balance`, then
`side === 'SELL' && tradeQuantity > currentHolding`. -/
def tradeCheck (o : TradeOrder) (q : ℚ) (tradeValue : JSNum) (s : TradeState) :
    Option RejectReason :=
  if o.side = OrderSide.BUY ∧ jgt tradeValue s.cashBalance = true then
    some RejectReason.insufficientBalance
  else if o.side = OrderSide.SELL ∧ jgt (some q) (some (holdingOf s o.symbol)) = true then
    some RejectReason.insufficientHoldings
  else none

/-- The trade record of a fill.  `profit_loss` is
`side === 'SELL' && portfolio[symbol] ? (executedPrice - portfolio[symbol].average_price) * tradeQuantity : undefined`,
read against the pre-trade `portfolio` state (a SELL never reassigns
`average_price`, so the aliased object still holds the pre-trade
average when the record is built). -/
def mkRecord (o : TradeOrder) (q : ℚ) (executedPrice : JSNum) (s : TradeState) :
    TradeRecord :=
  ⟨o.symbol, o.side, some q, executedPrice,
    if o.side = OrderSide.SELL then
      match pfLookup s.ledger o.symbol with
      | some pos => some (jmul (jsub executedPrice pos.average_price) (some q))
      | none => none
    else none⟩

/-- The state mutation of a validated order (the `try` block of
`executeTrade`): BUY re-averages or creates the position and debits the
balance; SELL credits the balance, reduces the position, rescales its
`total_value` from the unchanged `average_price`, and deletes it when
the remaining quantity is `<= 0`. -/
def applyFill (o : TradeOrder) (q : ℚ) (executedPrice : JSNum) (s : TradeState) :
    ExecOutcome :=
  let tradeValue := jmul (some q) executedPrice
  if o.side = OrderSide.BUY then
    match pfLookup s.ledger o.symbol with
    | some pos =>
        let totalQuantity := jadd pos.quantity (some q)
        let totalValue := jadd pos.total_value tradeValue
        ⟨none, some (mkRecord o q executedPrice s),
          ⟨pfInsert s.ledger o.symbol ⟨totalQuantity, jdiv totalValue totalQuantity, totalValue⟩,
           jsub s.cashBalance tradeValue⟩⟩
    | none =>
        ⟨none, some (mkRecord o q executedPrice s),
          ⟨pfInsert s.ledger o.symbol ⟨some q, executedPrice, tradeValue⟩,
           jsub s.cashBalance tradeValue⟩⟩
  else
    match pfLookup s.ledger o.symbol with
    | some pos =>
        let newQty := jsub pos.quantity (some q)
        let newLedger :=
          if jle newQty (some 0) = true then pfErase s.ledger o.symbol
          else pfInsert s.ledger o.symbol
            ⟨newQty, pos.average_price, jmul newQty pos.average_price⟩
        ⟨none, some (mkRecord o q executedPrice s), ⟨newLedger, jadd s.cashBalance tradeValue⟩⟩
    | none =>
        ⟨none, some (mkRecord o q executedPrice s), ⟨s.ledger, jadd s.cashBalance tradeValue⟩⟩

/-- `executeTrade`, translated branch for branch: the empty-field check
(`!symbol || !quantity`), the quantity check
(`isNaN(Number(quantity)) || Number(quantity) <= 0`), then the
slippage-priced notional, the funds/holdings checks, and the fill.
Every rejection returns before any state change. -/
def executeTrade (o : TradeOrder) (r : ℚ) (s : TradeState) : ExecOutcome :=
  if o.symbol = "" ∨ o.quantityGiven = false then
    ⟨some RejectReason.missingFields, none, s⟩
  else
    match o.quantity with
    | none => ⟨some RejectReason.invalidQuantity, none, s⟩
    | some q =>
      if q ≤ 0 then ⟨some RejectReason.invalidQuantity, none, s⟩
      else
        match tradeCheck o q (jmul (some q) (calculateMarketSlippage (priceOf o.symbol) r)) s with
        | some rr => ⟨some rr, none, s⟩
        | none => applyFill o q (calculateMarketSlippage (priceOf o.symbol) r) s

/-- The component's initial state: empty portfolio, balance 10000. -/
def initialState : TradeState := ⟨[], some 10000⟩

/-- Run a sequence of `executeTrade` calls, threading the state; each
element carries the order and its `Math.random()` draw. -/
def runTrades : List (TradeOrder × ℚ) → TradeState → TradeState
  | [], s => s
  | (o, r) :: rest, s => runTrades rest (executeTrade o r s).state

/-- The ledger invariant: every held position has a finite quantity
strictly greater than zero, a finite average price, and a total cost
basis equal (exactly, over ℚ) to quantity times average price. -/
def PositionsOK (l : Ledger) : Prop :=
  ∀ sym pos, pfLookup l sym = some pos →
    ∃ q a, pos.quantity = some q ∧ 0 < q ∧ pos.average_price = some a ∧
      pos.total_value = some (q * a)

/-! ## Basic facts about the JS-number operations -/

@[simp]
theorem jadd_some (a b : ℚ) : jadd (some a) (some b) = some (a + b) := rfl

@[simp]
theorem jsub_some (a b : ℚ) : jsub (some a) (some b) = some (a - b) := rfl

@[simp]
theorem jmul_some (a b : ℚ) : jmul (some a) (some b) = some (a * b) := rfl

@[simp]
theorem jgt_some (a b : ℚ) : jgt (some a) (some b) = decide (b < a) := rfl

@[simp]
theorem jle_some (a b : ℚ) : jle (some a) (some b) = decide (a ≤ b) := rfl

@[simp]
theorem jdiv_some (a b : ℚ) :
    jdiv (some a) (some b) = if b = 0 then none else some (a / b) := rfl

@[simp]
theorem jmul_none_left (x : JSNum) : jmul none x = none := by cases x <;> rfl

@[simp]
theorem jmul_none_right (x : JSNum) : jmul x none = none := by cases x <;> rfl

@[simp]
theorem jadd_none_right (x : JSNum) : jadd x none = none := by cases x <;> rfl

@[simp]
theorem jsub_none_right (x : JSNum) : jsub x none = none := by cases x <;> rfl

@[simp]
theorem jgt_none_left (x : JSNum) : jgt none x = false := by cases x <;> rfl

@[simp]
theorem jgt_none_right (x : JSNum) : jgt x none = false := by cases x <;> rfl

@[simp]
theorem jle_none_left (x : JSNum) : jle none x = false := by cases x <;> rfl

/-! ## Ledger lookup, insert, erase -/

@[simp]
theorem pfLookup_insert_self (l : Ledger) (sym : String) (p : Position) :
    pfLookup (pfInsert l sym p) sym = some p := by
  induction l with
  | nil => simp [pfInsert, pfLookup]
  | cons hd tl ih =>
      by_cases h : hd.1 = sym
      · simp [pfInsert, pfLookup, h]
      · simpa [pfInsert, pfLookup, h] using ih

theorem pfLookup_insert_other (l : Ledger) (sym sym' : String) (p : Position)
    (h : sym' ≠ sym) :
    pfLookup (pfInsert l sym p) sym' = pfLookup l sym' := by
  induction l with
  | nil =>
      show pfLookup [(sym, p)] sym' = none
      simp only [pfLookup, if_neg h.symm]
  | cons hd tl ih =>
      rcases hd with ⟨s₀, p₀⟩
      by_cases h1 : s₀ = sym
      · subst h1
        simp only [pfInsert, eq_self_iff_true, if_true, pfLookup, if_neg h.symm]
      · simp only [pfInsert, if_neg h1, pfLookup]
        by_cases h2 : s₀ = sym'
        · simp only [if_pos h2]
        · simp only [if_neg h2, ih]

@[simp]
theorem pfLookup_erase_self (l : Ledger) (sym : String) :
    pfLookup (pfErase l sym) sym = none := by
  induction l with
  | nil => simp [pfErase, pfLookup]
  | cons hd tl ih =>
      by_cases h : hd.1 = sym
      · simpa [pfErase, pfLookup, h] using ih
      · simpa [pfErase, pfLookup, h] using ih

theorem pfLookup_erase_other (l : Ledger) (sym sym' : String) (h : sym' ≠ sym) :
    pfLookup (pfErase l sym) sym' = pfLookup l sym' := by
  induction l with
  | nil => rfl
  | cons hd tl ih =>
      rcases hd with ⟨s₀, p₀⟩
      by_cases h1 : s₀ = sym
      · subst h1
        simp only [pfErase, eq_self_iff_true, if_true, pfLookup, if_neg h.symm, ih]
      · simp only [pfErase, if_neg h1, pfLookup]
        by_cases h2 : s₀ = sym'
        · simp only [if_pos h2]
        · simp only [if_neg h2, ih]

/-! ## Structure of `executeTrade` -/

/-- A fill never reports a rejection. -/
theorem applyFill_reject (o : TradeOrder) (q : ℚ) (p : JSNum) (s : TradeState) :
    (applyFill o q p s).reject = none := by
  unfold applyFill
  split
  · split <;> rfl
  · split <;> rfl

/-- A fill always produces the trade record of `mkRecord`. -/
theorem applyFill_record (o : TradeOrder) (q : ℚ) (p : JSNum) (s : TradeState) :
    (applyFill o q p s).record = some (mkRecord o q p s) := by
  unfold applyFill
  split
  · split <;> rfl
  · split <;> rfl

/-- Every `executeTrade` call either rejects before touching the state or
fills a validated positive quantity. -/
theorem executeTrade_elim (o : TradeOrder) (r : ℚ) (s : TradeState) :
    (∃ reason, executeTrade o r s = ⟨some reason, none, s⟩) ∨
    (∃ q, o.quantity = some q ∧ 0 < q ∧
      tradeCheck o q (jmul (some q) (calculateMarketSlippage (priceOf o.symbol) r)) s = none ∧
      executeTrade o r s = applyFill o q (calculateMarketSlippage (priceOf o.symbol) r) s) := by
  unfold executeTrade
  split
  · exact Or.inl ⟨RejectReason.missingFields, rfl⟩
  · split
    · exact Or.inl ⟨RejectReason.invalidQuantity, rfl⟩
    · rename_i q heq
      split
      · exact Or.inl ⟨RejectReason.invalidQuantity, rfl⟩
      · rename_i hq
        split
        · rename_i rr htc
          exact Or.inl ⟨rr, rfl⟩
        · rename_i htc
          exact Or.inr ⟨q, heq, lt_of_not_le hq, htc, rfl⟩

/-- When the precondition checks all pass, `executeTrade` is the fill. -/
theorem executeTrade_fill (o : TradeOrder) (q r : ℚ) (s : TradeState)
    (h1 : ¬ o.symbol = "") (h2 : o.quantityGiven = true) (h3 : o.quantity = some q)
    (h4 : 0 < q)
    (h5 : tradeCheck o q (jmul (some q) (calculateMarketSlippage (priceOf o.symbol) r)) s =
      none) :
    executeTrade o r s = applyFill o q (calculateMarketSlippage (priceOf o.symbol) r) s := by
  unfold executeTrade
  rw [if_neg (by simp [h1, h2])]
  simp only [h3]
  rw [if_neg (not_le.mpr h4), h5]

/-- When a funds or holdings check fires, `executeTrade` rejects with its
reason and returns the state untouched. -/
theorem executeTrade_checkReject (o : TradeOrder) (q r : ℚ) (s : TradeState)
    (rr : RejectReason)
    (h1 : ¬ o.symbol = "") (h2 : o.quantityGiven = true) (h3 : o.quantity = some q)
    (h4 : 0 < q)
    (h5 : tradeCheck o q (jmul (some q) (calculateMarketSlippage (priceOf o.symbol) r)) s =
      some rr) :
    executeTrade o r s = ⟨some rr, none, s⟩ := by
  unfold executeTrade
  rw [if_neg (by simp [h1, h2])]
  simp only [h3]
  rw [if_neg (not_le.mpr h4), h5]

/-- The rejection verdict of `executeTrade`, isolated: the field checks,
then the quantity check, then the funds/holdings check. -/
theorem reject_formula (o : TradeOrder) (r : ℚ) (s : TradeState) :
    (executeTrade o r s).reject =
      if o.symbol = "" ∨ o.quantityGiven = false then some RejectReason.missingFields
      else
        match o.quantity with
        | none => some RejectReason.invalidQuantity
        | some q =>
          if q ≤ 0 then some RejectReason.invalidQuantity
          else tradeCheck o q (jmul (some q) (calculateMarketSlippage (priceOf o.symbol) r)) s := by
  unfold executeTrade
  split
  · rfl
  · split
    · rfl
    · split
      · rfl
      · split
        · rename_i rr htc
          rw [htc]
        · rename_i htc
          rw [htc, applyFill_reject]

/-- BUY fill with no prior position: create it and debit the balance. -/
theorem applyFill_buy_new (o : TradeOrder) (q : ℚ) (p : JSNum) (s : TradeState)
    (hside : o.side = OrderSide.BUY) (hlk : pfLookup s.ledger o.symbol = none) :
    applyFill o q p s =
      ⟨none, some (mkRecord o q p s),
        ⟨pfInsert s.ledger o.symbol ⟨some q, p, jmul (some q) p⟩,
         jsub s.cashBalance (jmul (some q) p)⟩⟩ := by
  unfold applyFill
  rw [if_pos hside, hlk]

/-- BUY fill against an existing position: re-average it and debit the
balance. -/
theorem applyFill_buy_exist (o : TradeOrder) (q : ℚ) (p : JSNum) (s : TradeState)
    (pos : Position)
    (hside : o.side = OrderSide.BUY) (hlk : pfLookup s.ledger o.symbol = some pos) :
    applyFill o q p s =
      ⟨none, some (mkRecord o q p s),
        ⟨pfInsert s.ledger o.symbol
          ⟨jadd pos.quantity (some q),
           jdiv (jadd pos.total_value (jmul (some q) p)) (jadd pos.quantity (some q)),
           jadd pos.total_value (jmul (some q) p)⟩,
         jsub s.cashBalance (jmul (some q) p)⟩⟩ := by
  unfold applyFill
  rw [if_pos hside, hlk]

/-- SELL fill against an existing position: credit the balance, reduce
the position, rescale its cost basis, delete it when empty. -/
theorem applyFill_sell_exist (o : TradeOrder) (q : ℚ) (p : JSNum) (s : TradeState)
    (pos : Position)
    (hside : o.side = OrderSide.SELL) (hlk : pfLookup s.ledger o.symbol = some pos) :
    applyFill o q p s =
      ⟨none, some (mkRecord o q p s),
        ⟨if jle (jsub pos.quantity (some q)) (some 0) = true then pfErase s.ledger o.symbol
          else pfInsert s.ledger o.symbol
            ⟨jsub pos.quantity (some q), pos.average_price,
             jmul (jsub pos.quantity (some q)) pos.average_price⟩,
         jadd s.cashBalance (jmul (some q) p)⟩⟩ := by
  unfold applyFill
  rw [if_neg (by rw [hside]; intro hc; cases hc), hlk]

/-- SELL fill with no prior position: only the balance moves. -/
theorem applyFill_sell_none (o : TradeOrder) (q : ℚ) (p : JSNum) (s : TradeState)
    (hside : o.side = OrderSide.SELL) (hlk : pfLookup s.ledger o.symbol = none) :
    applyFill o q p s =
      ⟨none, some (mkRecord o q p s),
        ⟨s.ledger, jadd s.cashBalance (jmul (some q) p)⟩⟩ := by
  unfold applyFill
  rw [if_neg (by rw [hside]; intro hc; cases hc), hlk]

/-- Ledger change of any fill, away from the traded symbol: none. -/
theorem applyFill_frame (o : TradeOrder) (q : ℚ) (p : JSNum) (s : TradeState)
    (sym : String) (h : sym ≠ o.symbol) :
    pfLookup (applyFill o q p s).state.ledger sym = pfLookup s.ledger sym := by
  unfold applyFill
  split
  · split
    · exact pfLookup_insert_other _ _ _ _ h
    · exact pfLookup_insert_other _ _ _ _ h
  · split
    · show pfLookup (if _ = true then _ else _) sym = _
      split
      · exact pfLookup_erase_other _ _ _ h
      · exact pfLookup_insert_other _ _ _ _ h
    · rfl

/-- The slippage model on a real base price, evaluated. -/
theorem slippage_eval (bp r : ℚ) :
    calculateMarketSlippage (some bp) r = some (bp * (1 + (r - 0.5) * 0.01)) := rfl

/-- The slippage model on an unknown (undefined) base price: NaN. -/
theorem slippage_nan (r : ℚ) : calculateMarketSlippage none r = none := rfl

/-- For a BUY order, `tradeCheck` is exactly the funds check. -/
theorem tradeCheck_buy (o : TradeOrder) (q : ℚ) (tv : JSNum) (s : TradeState)
    (hside : o.side = OrderSide.BUY) :
    tradeCheck o q tv s =
      if jgt tv s.cashBalance = true then some RejectReason.insufficientBalance else none := by
  unfold tradeCheck
  by_cases h : jgt tv s.cashBalance = true
  · rw [if_pos ⟨hside, h⟩, if_pos h]
  · rw [if_neg (fun hc => h hc.2), if_neg h,
      if_neg (fun hc => by rw [hside] at hc; cases hc.1)]

/-- For a SELL order, `tradeCheck` is exactly the holdings check. -/
theorem tradeCheck_sell (o : TradeOrder) (q : ℚ) (tv : JSNum) (s : TradeState)
    (hside : o.side = OrderSide.SELL) :
    tradeCheck o q tv s =
      if holdingOf s o.symbol < q then some RejectReason.insufficientHoldings else none := by
  unfold tradeCheck
  rw [if_neg (fun hc => by rw [hside] at hc; cases hc.1)]
  by_cases h : holdingOf s o.symbol < q
  · rw [if_pos ⟨hside, by simp [h]⟩, if_pos h]
  · rw [if_neg (fun hc => h (by simpa using hc.2)), if_neg h]

/-- Profit and loss field of a fill's record, isolated. -/
theorem mkRecord_pnl (o : TradeOrder) (q : ℚ) (p : JSNum) (s : TradeState) :
    (mkRecord o q p s).profit_loss =
      if o.side = OrderSide.SELL then
        match pfLookup s.ledger o.symbol with
        | some pos => some (jmul (jsub p pos.average_price) (some q))
        | none => none
      else none := rfl

/-- C9: for every strictly positive base price and every admissible draw
of `Math.random()`, the Slippage Model returns `basePrice * (1 + p)` with
the perturbation `p = (r - 0.5) * 0.01` lying in `[-0.005, +0.005]`, so
the executed price lies in `[basePrice * 0.995, basePrice * 1.005]` and is
strictly positive.  (The function is pure: it reads and writes no state,
which the embedding reflects by it being a function of its arguments
only.) -/
theorem slippage_model_correct (bp r : ℚ) (hbp : 0 < bp) (hr0 : 0 ≤ r) (hr1 : r < 1) :
    calculateMarketSlippage (some bp) r = some (bp * (1 + (r - 0.5) * 0.01)) ∧
    -(5/1000 : ℚ) ≤ (r - 0.5) * 0.01 ∧ (r - 0.5) * 0.01 ≤ 5/1000 ∧
    bp * (995/1000) ≤ bp * (1 + (r - 0.5) * 0.01) ∧
    bp * (1 + (r - 0.5) * 0.01) ≤ bp * (1005/1000) ∧
    0 < bp * (1 + (r - 0.5) * 0.01) := by
  have hp1 : (995/1000 : ℚ) ≤ 1 + (r - 0.5) * 0.01 := by
    rw [show (0.5 : ℚ) = 1/2 by norm_num, show (0.01 : ℚ) = 1/100 by norm_num]
    linarith
  have hp2 : 1 + (r - 0.5) * 0.01 ≤ (1005/1000 : ℚ) := by
    rw [show (0.5 : ℚ) = 1/2 by norm_num, show (0.01 : ℚ) = 1/100 by norm_num]
    linarith
  refine ⟨rfl, ?_, ?_, ?_, ?_, ?_⟩
  · rw [show (0.5 : ℚ) = 1/2 by norm_num, show (0.01 : ℚ) = 1/100 by norm_num]
    linarith
  · rw [show (0.5 : ℚ) = 1/2 by norm_num, show (0.01 : ℚ) = 1/100 by norm_num]
    linarith
  · exact mul_le_mul_of_nonneg_left hp1 hbp.le
  · exact mul_le_mul_of_nonneg_left hp2 hbp.le
  · exact mul_pos hbp (by linarith)

/-- Witness for C9 at base price 100 and draw 1/2. -/
theorem slippage_model_correct_witness :
    calculateMarketSlippage (some 100) (1/2) =
      some (100 * (1 + ((1/2 : ℚ) - 0.5) * 0.01)) ∧
    -(5/1000 : ℚ) ≤ ((1/2 : ℚ) - 0.5) * 0.01 ∧ ((1/2 : ℚ) - 0.5) * 0.01 ≤ 5/1000 ∧
    (100 : ℚ) * (995/1000) ≤ 100 * (1 + ((1/2 : ℚ) - 0.5) * 0.01) ∧
    (100 : ℚ) * (1 + ((1/2 : ℚ) - 0.5) * 0.01) ≤ 100 * (1005/1000) ∧
    (0 : ℚ) < 100 * (1 + ((1/2 : ℚ) - 0.5) * 0.01) :=
  slippage_model_correct 100 (1/2) (by norm_num) (by norm_num) (by norm_num)

/-- C4: whenever `executeTrade` rejects an order — for any of its
rejection reasons — the cash balance and every position of the ledger are
left exactly unchanged and no trade record is produced. -/
theorem rejection_leaves_state_unchanged (o : TradeOrder) (r : ℚ) (s : TradeState)
    (reason : RejectReason) (h : (executeTrade o r s).reject = some reason) :
    (executeTrade o r s).state = s ∧ (executeTrade o r s).record = none := by
  rcases executeTrade_elim o r s with ⟨reason', hE⟩ | ⟨q, _, _, _, hE⟩
  · rw [hE]
    exact ⟨rfl, rfl⟩
  · rw [hE, applyFill_reject] at h
    cases h

/-- Witness for C4 at a concrete rejected order (empty quantity field). -/
theorem rejection_leaves_state_unchanged_witness :
    (executeTrade ⟨"BTCUSDT", OrderSide.BUY, some 1, false⟩ (1/2) initialState).state =
      initialState ∧
    (executeTrade ⟨"BTCUSDT", OrderSide.BUY, some 1, false⟩ (1/2) initialState).record =
      none :=
  rejection_leaves_state_unchanged _ _ _ RejectReason.missingFields (by decide)

/-- C10: executing a trade for one symbol leaves the position of every
other symbol in the ledger unchanged. -/
theorem trade_frame_other_symbols (o : TradeOrder) (r : ℚ) (s : TradeState) (sym : String)
    (h : sym ≠ o.symbol) :
    pfLookup (executeTrade o r s).state.ledger sym = pfLookup s.ledger sym := by
  rcases executeTrade_elim o r s with ⟨reason, hE⟩ | ⟨q, _, _, _, hE⟩
  · rw [hE]
  · rw [hE]
    exact applyFill_frame o q _ s sym h

/-- Witness for C10: a BTCUSDT trade does not move the ETHUSDT entry. -/
theorem trade_frame_other_symbols_witness :
    pfLookup (executeTrade ⟨"BTCUSDT", OrderSide.BUY, some 1, true⟩ (1/2)
        initialState).state.ledger "ETHUSDT" =
      pfLookup initialState.ledger "ETHUSDT" :=
  trade_frame_other_symbols _ _ _ _ (by decide)

/-- C1 counterexample: a BUY of 1 unit of the symbol FOO, which is absent
from MOCK_PRICES, is not rejected at all (so in particular not with any
UNKNOWN_SYMBOL reason) and does mutate the state: the balance and the
created position's price fields become NaN. -/
theorem unknown_symbol_not_rejected_counterexample :
    (executeTrade ⟨"FOO", OrderSide.BUY, some 1, true⟩ (1/2) initialState).reject = none ∧
    (executeTrade ⟨"FOO", OrderSide.BUY, some 1, true⟩ (1/2) initialState).state ≠
      initialState := ⟨by decide, by decide⟩

/-- C1 (amended): `executeTrade` performs no unknown-symbol check and has
no UNKNOWN_SYMBOL rejection kind.  For a positive-quantity order on a
symbol absent from MOCK_PRICES and not already held: a SELL is rejected —
with the insufficient-holdings reason, not an unknown-symbol one — and
leaves the state unchanged, while a BUY is not rejected at all: it fills,
setting the cash balance and the created position's `average_price` and
`total_value` to NaN.  (In the UI the symbol always comes from
`tradingPairs`, all of whose members are priced, so this path is
unreachable from the form.) -/
theorem unknown_symbol_behavior (o : TradeOrder) (q r : ℚ) (s : TradeState)
    (hbp : priceOf o.symbol = none) (hsym : ¬ o.symbol = "") (hg : o.quantityGiven = true)
    (hq : o.quantity = some q) (hqpos : 0 < q)
    (hlk : pfLookup s.ledger o.symbol = none) :
    (o.side = OrderSide.SELL →
      executeTrade o r s = ⟨some RejectReason.insufficientHoldings, none, s⟩) ∧
    (o.side = OrderSide.BUY →
      (executeTrade o r s).reject = none ∧
      (executeTrade o r s).state.cashBalance = none ∧
      pfLookup (executeTrade o r s).state.ledger o.symbol = some ⟨some q, none, none⟩) := by
  have hnan : calculateMarketSlippage (priceOf o.symbol) r = none := by
    rw [hbp, slippage_nan]
  have hhof : holdingOf s o.symbol = 0 := by
    unfold holdingOf
    rw [hlk]
  constructor
  · intro hside
    apply executeTrade_checkReject o q r s _ hsym hg hq hqpos
    rw [tradeCheck_sell o q _ s hside, hhof, if_pos hqpos]
  · intro hside
    have htc : tradeCheck o q
        (jmul (some q) (calculateMarketSlippage (priceOf o.symbol) r)) s = none := by
      rw [tradeCheck_buy o q _ s hside, hnan]
      simp
    rw [executeTrade_fill o q r s hsym hg hq hqpos htc,
      applyFill_buy_new o q _ s hside hlk, hnan]
    refine ⟨rfl, by simp, ?_⟩
    show pfLookup (pfInsert s.ledger o.symbol ⟨some q, none, jmul (some q) none⟩) o.symbol = _
    rw [pfLookup_insert_self]
    simp

/-- Witness for the amended C1 at the concrete unknown symbol FOO. -/
theorem unknown_symbol_behavior_witness :
    ((⟨"FOO", OrderSide.BUY, some 1, true⟩ : TradeOrder).side = OrderSide.SELL →
      executeTrade ⟨"FOO", OrderSide.BUY, some 1, true⟩ (1/2) initialState =
        ⟨some RejectReason.insufficientHoldings, none, initialState⟩) ∧
    ((⟨"FOO", OrderSide.BUY, some 1, true⟩ : TradeOrder).side = OrderSide.BUY →
      (executeTrade ⟨"FOO", OrderSide.BUY, some 1, true⟩ (1/2) initialState).reject = none ∧
      (executeTrade ⟨"FOO", OrderSide.BUY, some 1, true⟩ (1/2)
          initialState).state.cashBalance = none ∧
      pfLookup (executeTrade ⟨"FOO", OrderSide.BUY, some 1, true⟩ (1/2)
          initialState).state.ledger "FOO" = some ⟨some 1, none, none⟩) :=
  unknown_symbol_behavior ⟨"FOO", OrderSide.BUY, some 1, true⟩ 1 (1/2) initialState
    (by decide) (by decide) rfl rfl (by norm_num) rfl

/-- C2 counterexample: the same BUY order against the same untouched state
is rejected with the insufficient-funds reason under the slippage draw 3/5
but accepted under the draw 2/5 — the validation verdict is not stable
across runs. -/
theorem validator_verdict_draw_dependent_counterexample :
    (executeTrade ⟨"BTCUSDT", OrderSide.BUY, some 1, true⟩ (3/5)
        ⟨[], some 43250.5⟩).reject = some RejectReason.insufficientBalance ∧
    (executeTrade ⟨"BTCUSDT", OrderSide.BUY, some 1, true⟩ (2/5)
        ⟨[], some 43250.5⟩).reject = none := by
  constructor
  · norm_num +decide [executeTrade, tradeCheck, calculateMarketSlippage, priceOf,
      lookupPrice, MOCK_PRICES, holdingOf, jmul, jgt, jadd, jsub, jdiv, jle, applyFill,
      mkRecord, pfLookup, pfInsert, initialState]
  · norm_num +decide [executeTrade, tradeCheck, calculateMarketSlippage, priceOf,
      lookupPrice, MOCK_PRICES, holdingOf, jmul, jgt, jadd, jsub, jdiv, jle, applyFill,
      mkRecord, pfLookup, pfInsert, initialState]

/-- C2 (amended): running the validation of `executeTrade` twice on the
same order with no intervening mutation of the cash balance or the
portfolio yields the same verdict — accept, or reject with the same
reason — as long as the two runs are not a BUY whose slippage-priced
notional straddles the cash balance: the verdict is draw-independent for
every SELL, for an unpriced symbol, for a NaN balance, and for a BUY
whose worst-case notional fits in the balance or whose best-case
notional already exceeds it.  (A BUY inside the ±0.5% boundary band can
be accepted under one draw and rejected under another, because the funds
check uses the slippage-priced `tradeValue`, not the reference price.) -/
theorem validator_verdict_draw_stable (o : TradeOrder) (s : TradeState) (r1 r2 : ℚ)
    (h : o.side = OrderSide.SELL ∨ priceOf o.symbol = none ∨ s.cashBalance = none ∨
      (∃ q bp b, o.quantity = some q ∧ 0 < q ∧ priceOf o.symbol = some bp ∧ 0 < bp ∧
        s.cashBalance = some b ∧ 0 ≤ r1 ∧ r1 < 1 ∧ 0 ≤ r2 ∧ r2 < 1 ∧
        (q * (bp * (1005/1000)) ≤ b ∨ b < q * (bp * (995/1000))))) :
    (executeTrade o r1 s).reject = (executeTrade o r2 s).reject := by
  rw [reject_formula, reject_formula]
  by_cases hmf : o.symbol = "" ∨ o.quantityGiven = false
  · rw [if_pos hmf, if_pos hmf]
  · rw [if_neg hmf, if_neg hmf]
    cases hq : o.quantity with
    | none => rfl
    | some q =>
      dsimp only
      by_cases hq0 : q ≤ 0
      · rw [if_pos hq0, if_pos hq0]
      · rw [if_neg hq0, if_neg hq0]
        rcases h with hside | hbp | hb |
          ⟨q', bp, b, hq', hq'pos, hbp, hbppos, hb, hr10, hr11, hr20, hr21, hmargin⟩
        · rw [tradeCheck_sell o q _ s hside, tradeCheck_sell o q _ s hside]
        · rw [hbp]
          rfl
        · cases hside : o.side with
          | BUY =>
            rw [tradeCheck_buy o q _ s hside, tradeCheck_buy o q _ s hside, hb]
            simp
          | SELL =>
            rw [tradeCheck_sell o q _ s hside, tradeCheck_sell o q _ s hside]
        · rw [hq] at hq'
          injection hq' with hq'
          subst hq'
          cases hside : o.side with
          | SELL =>
            rw [tradeCheck_sell o q _ s hside, tradeCheck_sell o q _ s hside]
          | BUY =>
            rw [tradeCheck_buy o q _ s hside, tradeCheck_buy o q _ s hside, hb, hbp,
              slippage_eval, slippage_eval, jmul_some, jmul_some, jgt_some, jgt_some]
            have hf1 : (995/1000 : ℚ) ≤ 1 + (r1 - 0.5) * 0.01 ∧
                1 + (r1 - 0.5) * 0.01 ≤ (1005/1000 : ℚ) := by
              rw [show (0.5 : ℚ) = 1/2 by norm_num, show (0.01 : ℚ) = 1/100 by norm_num]
              constructor <;> linarith
            have hf2 : (995/1000 : ℚ) ≤ 1 + (r2 - 0.5) * 0.01 ∧
                1 + (r2 - 0.5) * 0.01 ≤ (1005/1000 : ℚ) := by
              rw [show (0.5 : ℚ) = 1/2 by norm_num, show (0.01 : ℚ) = 1/100 by norm_num]
              constructor <;> linarith
            rcases hmargin with hlo | hhi
            · have e1 : q * (bp * (1 + (r1 - 0.5) * 0.01)) ≤ b := by
                have := mul_le_mul_of_nonneg_left
                  (mul_le_mul_of_nonneg_left hf1.2 hbppos.le) (le_of_lt hq'pos)
                linarith
              have e2 : q * (bp * (1 + (r2 - 0.5) * 0.01)) ≤ b := by
                have := mul_le_mul_of_nonneg_left
                  (mul_le_mul_of_nonneg_left hf2.2 hbppos.le) (le_of_lt hq'pos)
                linarith
              rw [decide_eq_false (not_lt.mpr e1), decide_eq_false (not_lt.mpr e2)]
            · have e1 : b < q * (bp * (1 + (r1 - 0.5) * 0.01)) := by
                have := mul_le_mul_of_nonneg_left
                  (mul_le_mul_of_nonneg_left hf1.1 hbppos.le) (le_of_lt hq'pos)
                linarith
              have e2 : b < q * (bp * (1 + (r2 - 0.5) * 0.01)) := by
                have := mul_le_mul_of_nonneg_left
                  (mul_le_mul_of_nonneg_left hf2.1 hbppos.le) (le_of_lt hq'pos)
                linarith
              rw [decide_eq_true e1, decide_eq_true e2]

/-- Witness for the amended C2: a SELL order's verdict agrees across the
draws 0 and 1/2. -/
theorem validator_verdict_draw_stable_witness :
    (executeTrade ⟨"BTCUSDT", OrderSide.SELL, some 1, true⟩ 0 initialState).reject =
      (executeTrade ⟨"BTCUSDT", OrderSide.SELL, some 1, true⟩ (1/2) initialState).reject :=
  validator_verdict_draw_stable ⟨"BTCUSDT", OrderSide.SELL, some 1, true⟩ initialState
    0 (1/2) (Or.inl rfl)

/-- C5: for every BUY order that passes validation, execution debits the
cash balance by `quantity * executedPrice`; an existing position is
re-averaged (`newQuantity = oldQuantity + quantity`,
`newCostBasis = oldCostBasis + notional`,
`newAverage = newCostBasis / newQuantity`) and a fresh symbol gets a new
position with the traded quantity, `average_price = executedPrice` and
cost basis equal to the notional. -/
theorem buy_execution_correct (o : TradeOrder) (q r bp b p : ℚ) (s : TradeState)
    (hside : o.side = OrderSide.BUY) (hsym : ¬ o.symbol = "") (hg : o.quantityGiven = true)
    (hq : o.quantity = some q) (hqpos : 0 < q)
    (hbp : priceOf o.symbol = some bp) (hb : s.cashBalance = some b)
    (hp : p = bp * (1 + (r - 0.5) * 0.01))
    (hfunds : q * p ≤ b) :
    (executeTrade o r s).reject = none ∧
    (executeTrade o r s).state.cashBalance = some (b - q * p) ∧
    (pfLookup s.ledger o.symbol = none →
      pfLookup (executeTrade o r s).state.ledger o.symbol =
        some ⟨some q, some p, some (q * p)⟩) ∧
    (∀ pos oq oa otv, pfLookup s.ledger o.symbol = some pos →
      pos.quantity = some oq → 0 < oq → pos.average_price = some oa →
      pos.total_value = some otv →
      pfLookup (executeTrade o r s).state.ledger o.symbol =
        some ⟨some (oq + q), some ((otv + q * p) / (oq + q)), some (otv + q * p)⟩) := by
  subst hp
  have hsl : calculateMarketSlippage (priceOf o.symbol) r =
      some (bp * (1 + (r - 0.5) * 0.01)) := by
    rw [hbp, slippage_eval]
  have hgt : jgt (jmul (some q) (calculateMarketSlippage (priceOf o.symbol) r))
      s.cashBalance = false := by
    rw [hsl, hb, jmul_some, jgt_some]
    exact decide_eq_false (not_lt.mpr hfunds)
  have htc : tradeCheck o q
      (jmul (some q) (calculateMarketSlippage (priceOf o.symbol) r)) s = none := by
    rw [tradeCheck_buy o q _ s hside, hgt]
    simp
  have hE := executeTrade_fill o q r s hsym hg hq hqpos htc
  refine ⟨by rw [hE, applyFill_reject], ?_, ?_, ?_⟩
  · cases hlk : pfLookup s.ledger o.symbol with
    | none =>
        rw [hE, applyFill_buy_new o q _ s hside hlk]
        show jsub s.cashBalance (jmul (some q) (calculateMarketSlippage (priceOf o.symbol) r)) =
          some (b - q * (bp * (1 + (r - 0.5) * 0.01)))
        rw [hsl, hb, jmul_some, jsub_some]
    | some pos =>
        rw [hE, applyFill_buy_exist o q _ s pos hside hlk]
        show jsub s.cashBalance (jmul (some q) (calculateMarketSlippage (priceOf o.symbol) r)) =
          some (b - q * (bp * (1 + (r - 0.5) * 0.01)))
        rw [hsl, hb, jmul_some, jsub_some]
  · intro hlk
    rw [hE, applyFill_buy_new o q _ s hside hlk]
    show pfLookup (pfInsert s.ledger o.symbol
        ⟨some q, calculateMarketSlippage (priceOf o.symbol) r,
         jmul (some q) (calculateMarketSlippage (priceOf o.symbol) r)⟩) o.symbol =
      some ⟨some q, some (bp * (1 + (r - 0.5) * 0.01)),
        some (q * (bp * (1 + (r - 0.5) * 0.01)))⟩
    rw [pfLookup_insert_self, hsl, jmul_some]
  · intro pos oq oa otv hlk hpq hoq hpa hptv
    rw [hE, applyFill_buy_exist o q _ s pos hside hlk]
    show pfLookup (pfInsert s.ledger o.symbol
        ⟨jadd pos.quantity (some q),
         jdiv (jadd pos.total_value (jmul (some q) (calculateMarketSlippage (priceOf o.symbol) r)))
           (jadd pos.quantity (some q)),
         jadd pos.total_value (jmul (some q) (calculateMarketSlippage (priceOf o.symbol) r))⟩)
        o.symbol = _
    rw [pfLookup_insert_self, hsl, hpq, hptv, jmul_some, jadd_some, jadd_some, jdiv_some,
      if_neg (by intro hc; exact absurd hc (by positivity))]

/-- Witness for C5: BUY 10 ADAUSDT from the initial state at draw 1/2. -/
theorem buy_execution_correct_witness :
    (executeTrade ⟨"ADAUSDT", OrderSide.BUY, some 10, true⟩ (1/2) initialState).reject =
      none ∧
    (executeTrade ⟨"ADAUSDT", OrderSide.BUY, some 10, true⟩ (1/2)
        initialState).state.cashBalance = some (10000 - 10 * (97/200)) ∧
    (pfLookup initialState.ledger "ADAUSDT" = none →
      pfLookup (executeTrade ⟨"ADAUSDT", OrderSide.BUY, some 10, true⟩ (1/2)
          initialState).state.ledger "ADAUSDT" =
        some ⟨some 10, some (97/200), some (10 * (97/200))⟩) ∧
    (∀ pos oq oa otv, pfLookup initialState.ledger "ADAUSDT" = some pos →
      pos.quantity = some oq → 0 < oq → pos.average_price = some oa →
      pos.total_value = some otv →
      pfLookup (executeTrade ⟨"ADAUSDT", OrderSide.BUY, some 10, true⟩ (1/2)
          initialState).state.ledger "ADAUSDT" =
        some ⟨some (oq + 10), some ((otv + 10 * (97/200)) / (oq + 10)),
          some (otv + 10 * (97/200))⟩) :=
  buy_execution_correct ⟨"ADAUSDT", OrderSide.BUY, some 10, true⟩ 10 (1/2) (97/200)
    10000 (97/200) initialState rfl (by decide) rfl rfl (by norm_num)
    (by norm_num +decide [priceOf, lookupPrice, MOCK_PRICES]) rfl (by norm_num)
    (by norm_num)

/-- Full characterization of a validated SELL fill against an existing
position, shared by the SELL claims. -/
theorem sell_fill_state (o : TradeOrder) (q r oq : ℚ) (s : TradeState) (pos : Position)
    (hside : o.side = OrderSide.SELL) (hsym : ¬ o.symbol = "") (hg : o.quantityGiven = true)
    (hq : o.quantity = some q) (hqpos : 0 < q)
    (hlk : pfLookup s.ledger o.symbol = some pos) (hpq : pos.quantity = some oq)
    (hhold : q ≤ oq) :
    executeTrade o r s =
      ⟨none, some (mkRecord o q (calculateMarketSlippage (priceOf o.symbol) r) s),
        ⟨if oq - q ≤ 0 then pfErase s.ledger o.symbol
          else pfInsert s.ledger o.symbol
            ⟨some (oq - q), pos.average_price, jmul (some (oq - q)) pos.average_price⟩,
         jadd s.cashBalance (jmul (some q) (calculateMarketSlippage (priceOf o.symbol) r))⟩⟩ := by
  have hhof : holdingOf s o.symbol = oq := by
    unfold holdingOf
    rw [hlk]
    dsimp only
    rw [hpq]
    rfl
  have htc : tradeCheck o q
      (jmul (some q) (calculateMarketSlippage (priceOf o.symbol) r)) s = none := by
    rw [tradeCheck_sell o q _ s hside, hhof, if_neg (not_lt.mpr hhold)]
  rw [executeTrade_fill o q r s hsym hg hq hqpos htc,
    applyFill_sell_exist o q _ s pos hside hlk, hpq]
  simp only [jsub_some, jle_some, decide_eq_true_eq]

/-- C6: for every SELL order that passes validation, execution credits
the cash balance by `quantity * executedPrice`, reduces the position by
the sold quantity, rescales the cost basis to the new quantity times the
unchanged average price, and removes the position entirely when the
remaining quantity is `<= 0`. -/
theorem sell_execution_correct (o : TradeOrder) (q r bp b oq oa p : ℚ) (s : TradeState)
    (pos : Position)
    (hside : o.side = OrderSide.SELL) (hsym : ¬ o.symbol = "") (hg : o.quantityGiven = true)
    (hq : o.quantity = some q) (hqpos : 0 < q)
    (hbp : priceOf o.symbol = some bp) (hb : s.cashBalance = some b)
    (hlk : pfLookup s.ledger o.symbol = some pos) (hpq : pos.quantity = some oq)
    (hpa : pos.average_price = some oa) (hhold : q ≤ oq)
    (hp : p = bp * (1 + (r - 0.5) * 0.01)) :
    (executeTrade o r s).reject = none ∧
    (executeTrade o r s).state.cashBalance = some (b + q * p) ∧
    (oq - q ≤ 0 → pfLookup (executeTrade o r s).state.ledger o.symbol = none) ∧
    (0 < oq - q → pfLookup (executeTrade o r s).state.ledger o.symbol =
      some ⟨some (oq - q), some oa, some ((oq - q) * oa)⟩) := by
  subst hp
  rw [sell_fill_state o q r oq s pos hside hsym hg hq hqpos hlk hpq hhold]
  refine ⟨rfl, ?_, ?_, ?_⟩
  · show jadd s.cashBalance (jmul (some q) (calculateMarketSlippage (priceOf o.symbol) r)) = _
    rw [hbp, slippage_eval, hb, jmul_some, jadd_some]
  · intro h3
    show pfLookup (if oq - q ≤ 0 then pfErase s.ledger o.symbol
      else pfInsert s.ledger o.symbol
        ⟨some (oq - q), pos.average_price, jmul (some (oq - q)) pos.average_price⟩)
      o.symbol = none
    rw [if_pos h3, pfLookup_erase_self]
  · intro h4
    show pfLookup (if oq - q ≤ 0 then pfErase s.ledger o.symbol
      else pfInsert s.ledger o.symbol
        ⟨some (oq - q), pos.average_price, jmul (some (oq - q)) pos.average_price⟩)
      o.symbol = some ⟨some (oq - q), some oa, some ((oq - q) * oa)⟩
    rw [if_neg (not_le.mpr h4), pfLookup_insert_self, hpa, jmul_some]

/-- Witness for C6: SELL 4 of 10 held ADAUSDT at draw 1/2. -/
theorem sell_execution_correct_witness :
    (executeTrade ⟨"ADAUSDT", OrderSide.SELL, some 4, true⟩ (1/2)
        ⟨[("ADAUSDT", ⟨some 10, some (1/2), some 5⟩)], some 100⟩).reject = none ∧
    (executeTrade ⟨"ADAUSDT", OrderSide.SELL, some 4, true⟩ (1/2)
        ⟨[("ADAUSDT", ⟨some 10, some (1/2), some 5⟩)], some 100⟩).state.cashBalance =
      some (100 + 4 * (97/200)) ∧
    ((10 : ℚ) - 4 ≤ 0 →
      pfLookup (executeTrade ⟨"ADAUSDT", OrderSide.SELL, some 4, true⟩ (1/2)
        ⟨[("ADAUSDT", ⟨some 10, some (1/2), some 5⟩)], some 100⟩).state.ledger "ADAUSDT" =
        none) ∧
    ((0 : ℚ) < 10 - 4 →
      pfLookup (executeTrade ⟨"ADAUSDT", OrderSide.SELL, some 4, true⟩ (1/2)
        ⟨[("ADAUSDT", ⟨some 10, some (1/2), some 5⟩)], some 100⟩).state.ledger "ADAUSDT" =
        some ⟨some ((10 : ℚ) - 4), some (1/2), some (((10 : ℚ) - 4) * (1/2))⟩) :=
  sell_execution_correct ⟨"ADAUSDT", OrderSide.SELL, some 4, true⟩ 4 (1/2) (97/200) 100
    10 (1/2) (97/200) ⟨[("ADAUSDT", ⟨some 10, some (1/2), some 5⟩)], some 100⟩
    ⟨some 10, some (1/2), some 5⟩ rfl (by decide) rfl rfl (by norm_num)
    (by norm_num +decide [priceOf, lookupPrice, MOCK_PRICES]) rfl rfl rfl rfl
    (by norm_num) (by norm_num)

/-- C7: a SELL that leaves the position non-empty does not change the
position's average price. -/
theorem sell_preserves_average_price (o : TradeOrder) (q r oq : ℚ) (s : TradeState)
    (pos pos' : Position)
    (hside : o.side = OrderSide.SELL) (hsym : ¬ o.symbol = "") (hg : o.quantityGiven = true)
    (hq : o.quantity = some q) (hqpos : 0 < q)
    (hlk : pfLookup s.ledger o.symbol = some pos) (hpq : pos.quantity = some oq)
    (hhold : q ≤ oq) (hkeep : 0 < oq - q)
    (hpos' : pfLookup (executeTrade o r s).state.ledger o.symbol = some pos') :
    pos'.average_price = pos.average_price := by
  rw [sell_fill_state o q r oq s pos hside hsym hg hq hqpos hlk hpq hhold] at hpos'
  dsimp only at hpos'
  rw [if_neg (not_le.mpr hkeep), pfLookup_insert_self] at hpos'
  injection hpos' with h
  rw [← h]

/-- Witness for C7 at the concrete SELL of the C6 scenario. -/
theorem sell_preserves_average_price_witness :
    (⟨some ((10 : ℚ) - 4), some (1/2), some (((10 : ℚ) - 4) * (1/2))⟩ :
        Position).average_price =
      (⟨some 10, some (1/2), some 5⟩ : Position).average_price :=
  sell_preserves_average_price ⟨"ADAUSDT", OrderSide.SELL, some 4, true⟩ 4 (1/2) 10
    ⟨[("ADAUSDT", ⟨some 10, some (1/2), some 5⟩)], some 100⟩
    ⟨some 10, some (1/2), some 5⟩ ⟨some ((10 : ℚ) - 4), some (1/2), some (((10 : ℚ) - 4) * (1/2))⟩
    rfl (by decide) rfl rfl (by norm_num) rfl rfl (by norm_num) (by norm_num)
    (by norm_num +decide [executeTrade, tradeCheck, calculateMarketSlippage, priceOf,
      lookupPrice, MOCK_PRICES, holdingOf, jmul, jgt, jadd, jsub, jdiv, jle, applyFill,
      mkRecord, pfLookup, pfInsert, pfErase])

/-- C8: for every executed SELL against an existing position the trade
record's realized profit/loss is `(executedPrice - average_price_before) *
quantity`; the field is undefined exactly when no prior position existed —
a situation that is unreachable for a SELL that passed validation — and it
is undefined for every BUY. -/
theorem pnl_correct (o : TradeOrder) (q r bp : ℚ) (s : TradeState) (rec : TradeRecord)
    (hrec : (executeTrade o r s).record = some rec) :
    (o.side = OrderSide.BUY → rec.profit_loss = none) ∧
    (o.side = OrderSide.SELL → pfLookup s.ledger o.symbol = none → False) ∧
    (o.side = OrderSide.SELL →
      (rec.profit_loss = none ↔ pfLookup s.ledger o.symbol = none)) ∧
    (∀ pos oa, o.side = OrderSide.SELL → pfLookup s.ledger o.symbol = some pos →
      pos.average_price = some oa → o.quantity = some q → priceOf o.symbol = some bp →
      rec.profit_loss = some (some ((bp * (1 + (r - 0.5) * 0.01) - oa) * q))) := by
  rcases executeTrade_elim o r s with ⟨reason, hE⟩ | ⟨q0, hq0, hq0pos, htc, hE⟩
  · rw [hE] at hrec
    cases hrec
  · rw [hE, applyFill_record] at hrec
    injection hrec with hrec
    subst hrec
    have hnolk : o.side = OrderSide.SELL → pfLookup s.ledger o.symbol = none → False := by
      intro hside hlk
      rw [tradeCheck_sell o q0 _ s hside] at htc
      have hhof : holdingOf s o.symbol = 0 := by
        unfold holdingOf
        rw [hlk]
      rw [hhof, if_pos hq0pos] at htc
      cases htc
    refine ⟨?_, hnolk, ?_, ?_⟩
    · intro hside
      rw [mkRecord_pnl, if_neg (by rw [hside]; intro hc; cases hc)]
    · intro hside
      constructor
      · intro hpl
        by_cases hlk : pfLookup s.ledger o.symbol = none
        · exact hlk
        · rcases Option.ne_none_iff_exists'.mp hlk with ⟨pos, hpos⟩
          rw [mkRecord_pnl, if_pos hside, hpos] at hpl
          dsimp only at hpl
          cases hpl
      · intro hlk
        exact (hnolk hside hlk).elim
    · intro pos oa hside hlk hpa hq hbp
      have hqq : q = q0 := Option.some.inj (hq.symm.trans hq0)
      subst hqq
      rw [mkRecord_pnl, if_pos hside, hlk]
      dsimp only
      rw [hpa, hbp, slippage_eval, jsub_some, jmul_some]

/-- Witness for C8: the SELL of the C6 scenario, with its concrete trade
record. -/
theorem pnl_correct_witness :
    ((⟨"ADAUSDT", OrderSide.SELL, some 4, true⟩ : TradeOrder).side = OrderSide.BUY →
      (⟨"ADAUSDT", OrderSide.SELL, some 4, some (97/200),
        some (some (((97 : ℚ)/200 - 1/2) * 4))⟩ : TradeRecord).profit_loss = none) ∧
    ((⟨"ADAUSDT", OrderSide.SELL, some 4, true⟩ : TradeOrder).side = OrderSide.SELL →
      pfLookup (⟨[("ADAUSDT", ⟨some 10, some (1/2), some 5⟩)], some 100⟩ :
        TradeState).ledger "ADAUSDT" = none → False) ∧
    ((⟨"ADAUSDT", OrderSide.SELL, some 4, true⟩ : TradeOrder).side = OrderSide.SELL →
      ((⟨"ADAUSDT", OrderSide.SELL, some 4, some (97/200),
          some (some (((97 : ℚ)/200 - 1/2) * 4))⟩ : TradeRecord).profit_loss = none ↔
        pfLookup (⟨[("ADAUSDT", ⟨some 10, some (1/2), some 5⟩)], some 100⟩ :
          TradeState).ledger "ADAUSDT" = none)) ∧
    (∀ pos oa, (⟨"ADAUSDT", OrderSide.SELL, some 4, true⟩ : TradeOrder).side =
        OrderSide.SELL →
      pfLookup (⟨[("ADAUSDT", ⟨some 10, some (1/2), some 5⟩)], some 100⟩ :
        TradeState).ledger "ADAUSDT" = some pos →
      pos.average_price = some oa →
      (⟨"ADAUSDT", OrderSide.SELL, some 4, true⟩ : TradeOrder).quantity = some 4 →
      priceOf "ADAUSDT" = some (97/200) →
      (⟨"ADAUSDT", OrderSide.SELL, some 4, some (97/200),
        some (some (((97 : ℚ)/200 - 1/2) * 4))⟩ : TradeRecord).profit_loss =
        some (some (((97 : ℚ)/200 * (1 + ((1/2 : ℚ) - 0.5) * 0.01) - oa) * 4))) :=
  pnl_correct ⟨"ADAUSDT", OrderSide.SELL, some 4, true⟩ 4 (1/2) (97/200)
    ⟨[("ADAUSDT", ⟨some 10, some (1/2), some 5⟩)], some 100⟩
    ⟨"ADAUSDT", OrderSide.SELL, some 4, some (97/200),
      some (some (((97 : ℚ)/200 - 1/2) * 4))⟩
    (by norm_num +decide [executeTrade, tradeCheck, calculateMarketSlippage, priceOf,
      lookupPrice, MOCK_PRICES, holdingOf, jmul, jgt, jadd, jsub, jdiv, jle, applyFill,
      mkRecord, pfLookup, pfInsert, pfErase])

/-- Every symbol the trading form can submit has a reference price. -/
theorem tradingPairs_priced (sym : String) (h : sym ∈ tradingPairs) :
    priceOf sym ≠ none := by
  unfold tradingPairs at h
  fin_cases h <;> decide

/-- One `executeTrade` call on a priced symbol preserves the ledger
invariant. -/
theorem executeTrade_preserves_PositionsOK (o : TradeOrder) (r : ℚ) (s : TradeState)
    (hbp : priceOf o.symbol ≠ none) (hinv : PositionsOK s.ledger) :
    PositionsOK (executeTrade o r s).state.ledger := by
  rcases executeTrade_elim o r s with ⟨reason, hE⟩ | ⟨q, hq, hqpos, htc, hE⟩
  · rw [hE]
    exact hinv
  · rcases Option.ne_none_iff_exists'.mp hbp with ⟨bp, hbp'⟩
    have hsl : calculateMarketSlippage (priceOf o.symbol) r =
        some (bp * (1 + (r - 0.5) * 0.01)) := by rw [hbp', slippage_eval]
    rw [hE]
    cases hside : o.side with
    | BUY =>
      cases hlk : pfLookup s.ledger o.symbol with
      | none =>
        rw [applyFill_buy_new o q _ s hside hlk, hsl]
        dsimp only
        intro sym pos hpos
        by_cases hsym : sym = o.symbol
        · subst hsym
          rw [pfLookup_insert_self] at hpos
          injection hpos with hpos
          rw [← hpos]
          exact ⟨q, bp * (1 + (r - 0.5) * 0.01), rfl, hqpos, rfl, rfl⟩
        · rw [pfLookup_insert_other _ _ _ _ hsym] at hpos
          exact hinv sym pos hpos
      | some pos₀ =>
        rcases hinv o.symbol pos₀ hlk with ⟨oq, oa, hq₀, hoq, ha₀, htv₀⟩
        rw [applyFill_buy_exist o q _ s pos₀ hside hlk, hsl]
        dsimp only
        intro sym pos hpos
        by_cases hsym : sym = o.symbol
        · subst hsym
          rw [pfLookup_insert_self] at hpos
          rw [hq₀, htv₀] at hpos
          have hne : oq + q ≠ 0 := by positivity
          simp only [jadd_some, jmul_some, jdiv_some] at hpos
          rw [if_neg hne] at hpos
          injection hpos with hpos
          rw [← hpos]
          refine ⟨oq + q, (oq * oa + q * (bp * (1 + (r - 0.5) * 0.01))) / (oq + q),
            rfl, by linarith, rfl, ?_⟩
          show some (oq * oa + q * (bp * (1 + (r - 0.5) * 0.01))) = _
          rw [mul_comm ((oq : ℚ) + q) _, div_mul_cancel₀ _ hne]
        · rw [pfLookup_insert_other _ _ _ _ hsym] at hpos
          exact hinv sym pos hpos
    | SELL =>
      cases hlk : pfLookup s.ledger o.symbol with
      | none =>
        rw [applyFill_sell_none o q _ s hside hlk]
        dsimp only
        exact hinv
      | some pos₀ =>
        rcases hinv o.symbol pos₀ hlk with ⟨oq, oa, hq₀, hoq, ha₀, htv₀⟩
        rw [applyFill_sell_exist o q _ s pos₀ hside hlk]
        dsimp only
        intro sym pos hpos
        rw [hq₀] at hpos
        simp only [jsub_some, jle_some, decide_eq_true_eq] at hpos
        by_cases hguard : oq - q ≤ 0
        · rw [if_pos hguard] at hpos
          by_cases hsym : sym = o.symbol
          · subst hsym
            rw [pfLookup_erase_self] at hpos
            cases hpos
          · rw [pfLookup_erase_other _ _ _ hsym] at hpos
            exact hinv sym pos hpos
        · rw [if_neg hguard] at hpos
          by_cases hsym : sym = o.symbol
          · subst hsym
            rw [pfLookup_insert_self] at hpos
            rw [ha₀] at hpos
            injection hpos with hpos
            rw [← hpos]
            exact ⟨oq - q, oa, rfl, not_le.mp hguard, rfl, rfl⟩
          · rw [pfLookup_insert_other _ _ _ _ hsym] at hpos
            exact hinv sym pos hpos

/-- Running any sequence of trades over priced symbols preserves the
ledger invariant. -/
theorem runTrades_inv (trades : List (TradeOrder × ℚ)) :
    ∀ s : TradeState, (∀ p ∈ trades, p.1.symbol ∈ tradingPairs) →
      PositionsOK s.ledger → PositionsOK (runTrades trades s).ledger := by
  induction trades with
  | nil =>
      intro s _ hinv
      exact hinv
  | cons hd tl ih =>
      intro s hsym hinv
      rcases hd with ⟨o, r⟩
      show PositionsOK (runTrades tl (executeTrade o r s).state).ledger
      apply ih
      · intro p hp
        exact hsym p (List.mem_cons_of_mem _ hp)
      · apply executeTrade_preserves_PositionsOK
        · exact tradingPairs_priced _ (hsym (o, r) (List.mem_cons_self _ _))
        · exact hinv

/-- C3: after any sequence of executed trades starting from the empty
portfolio (and its fixed 10000 balance), with every order's symbol drawn
from the form's `tradingPairs` dropdown, every position of the ledger has
`quantity > 0` and `total_value = quantity * average_price` — exactly
over ℚ, hence in particular within floating-point tolerance. -/
theorem ledger_invariant_holds (trades : List (TradeOrder × ℚ))
    (hsym : ∀ p ∈ trades, p.1.symbol ∈ tradingPairs) :
    PositionsOK (runTrades trades initialState).ledger :=
  runTrades_inv trades initialState hsym (fun sym pos hpos => by cases hpos)

/-- Witness for C3 at a concrete two-trade run. -/
theorem ledger_invariant_holds_witness :
    PositionsOK (runTrades
      [(⟨"BTCUSDT", OrderSide.BUY, some 1, true⟩, 1/2),
       (⟨"ADAUSDT", OrderSide.BUY, some 10, true⟩, 1/4)] initialState).ledger :=
  ledger_invariant_holds _ (by decide)
